import Mathlib

/-!
Shallow embedding of generate_predictions.py from the ai-stock-analyzer
repository. Machine floats are modelled as rationals, JSON objects as
structures over optional fields, and network and filesystem effects as
explicit outcome parameters supplied through an environment. Event
traces record network calls, delays and the final snapshot write.
-/

namespace StockAnalyzer

/-- Configured ticker symbols, the module constant SYMBOLS. -/
def SYMBOLS : List String := ["AAPL", "GOOGL", "TSLA", "MSFT"]

/-- Round a rational to the nearest integer with ties to even, the
semantics of the Python builtin round on exact values. -/
def rqHalfEven (x : ℚ) : ℤ :=
  let f : ℤ := ⌊x⌋
  let r : ℚ := x - f
  if r < 1/2 then f
  else if 1/2 < r then f + 1
  else if f % 2 = 0 then f else f + 1

/-- Python round(x, dp) on an exact value. -/
def roundq (dp : ℕ) (x : ℚ) : ℚ :=
  (rqHalfEven (x * 10 ^ dp) : ℚ) / 10 ^ dp

/-- Two digit zero padding for the cents part of a price string. -/
def pad2 (n : ℕ) : String :=
  if n < 10 then "0" ++ Nat.repr n else Nat.repr n

/-- Fixed point formatting with two decimals, the Python .2f format on
an exact value. -/
def fmt2 (x : ℚ) : String :=
  let cents := rqHalfEven (x * 100)
  let sign := if cents < 0 then "-" else ""
  let n := cents.natAbs
  sign ++ Nat.repr (n / 100) ++ "." ++ pad2 (n % 100)

/-- One record of the previously written predictions file, as far as
main reads it: presence of the symbol and error keys, and the value
stored under predicted_range. -/
structure PrevItem where
  symbol : Option String
  hasError : Bool
  predicted_range : Option (List (Option ℚ))
  deriving DecidableEq

/-- One dictionary update of the loading loop in main (lines 95 to 97):
a record with a symbol key and no error key is stored under its symbol,
overwriting earlier entries; every other record is skipped. -/
def updatePrior (m : String → Option PrevItem) (item : PrevItem) :
    String → Option PrevItem :=
  match item.symbol with
  | some s => if item.hasError then m else fun k => if k = s then some item else m k
  | none => m

/-- Loading of the previous predictions file (main, lines 91 to 99).
The argument is none when the file is missing or its content is not
valid JSON; both are caught and leave the mapping empty. -/
def loadPreviousPredictions (fileData : Option (List PrevItem)) :
    String → Option PrevItem :=
  match fileData with
  | none => fun _ => none
  | some items => items.foldl updatePrior (fun _ => none)

/-- The accuracy reconciliation block of main (lines 119 to 128): the
value of accuracy_check_hit paired with the display string
yesterdays_predicted_range_str. The guarded path requires the
predicted_range key to hold a truthy list of length two with both
entries non null; every other shape leaves the defaults. -/
def accuracyCheck (prior : Option PrevItem) (currentPrice : ℚ) :
    Option Bool × String :=
  match prior with
  | none => (none, "N/A")
  | some yp =>
    match yp.predicted_range with
    | some (some lo :: some hi :: []) =>
      (some (decide (lo ≤ currentPrice ∧ currentPrice ≤ hi)),
       "$" ++ fmt2 lo ++ " - $" ++ fmt2 hi)
    | _ => (none, "N/A")

/-- Environment of one news request: whether NEWS_API_KEY is set, and
the outcome of the HTTP request. The error side stands for a raised
requests.RequestException; the ok side carries the articles list, each
article with its optional title field. -/
structure NewsEnv where
  apiKeyPresent : Bool
  requestResult : Except String (List (Option String))

/-- The headline join of get_stock_data_and_news (line 38). An article
without a title raises a KeyError, which the handler around the request
does not catch. -/
def joinTitles (articles : List (Option String)) : Except String String :=
  if articles.all Option.isSome then
    Except.ok (String.intercalate "\n" (articles.map (fun a => "- " ++ a.getD "")))
  else
    Except.error "KeyError: title"

/-- The news part of get_stock_data_and_news (lines 33 to 39): a missing
key keeps the default text, a request exception is converted into a
placeholder, and a successful response is joined into one block. -/
def fetchNews (env : NewsEnv) : Except String String :=
  if env.apiKeyPresent then
    match env.requestResult with
    | Except.error e => Except.ok ("Could not fetch news: " ++ e)
    | Except.ok articles => joinTitles articles
  else
    Except.ok "No recent news found."

/-- get_stock_data_and_news (lines 28 to 40): the download outcome is
checked for at least two bars, then the news text is attached. Bars are
the close column in ascending date order. -/
def get_stock_data_and_news (symbol : String) (bars : Except String (List ℚ))
    (news : NewsEnv) : Except String (List ℚ × String) :=
  match bars with
  | Except.error e => Except.error e
  | Except.ok closes =>
    if closes.length < 2 then
      Except.error ("yfinance returned insufficient data for " ++ symbol)
    else
      match fetchNews news with
      | Except.error e => Except.error e
      | Except.ok h => Except.ok (closes, h)

/-- Parsed forecast JSON object, restricted to the keys the script ever
reads or the prompt requests; a missing key is none. -/
structure ForecastJson where
  sentiment : Option String
  reasoning : Option String
  predicted_low : Option ℚ
  predicted_high : Option ℚ
  predicted_range : Option (List (Option ℚ))
  deriving DecidableEq

/-- Composite outcome of one attempt of get_ai_analysis: either a parsed
JSON object, or any of the uniformly caught failures of steps 2 to 5
(network error, bad status, empty body, missing candidates, malformed
JSON, missing nested fields). -/
inductive AttemptOutcome where
  | ok (v : ForecastJson)
  | fail (e : String)
  deriving DecidableEq

/-- Observable effects of a run. -/
inductive Event where
  | networkCall (attempt : ℕ)
  | sleep (seconds : ℕ)
  | snapshotWrite
  deriving DecidableEq

def max_retries : ℕ := 3

/-- The retry loop of get_ai_analysis (lines 53 to 67). The second
argument is the current attempt index, the third the number of loop
iterations still available. A failure on a non final attempt is
followed by a two second sleep; on the final attempt it is re-raised. -/
def getAiAnalysisGo (responses : ℕ → AttemptOutcome) :
    ℕ → ℕ → List Event × Except String ForecastJson
  | _, 0 => ([], Except.error "")
  | attempt, remaining + 1 =>
    match responses attempt with
    | AttemptOutcome.ok v => ([Event.networkCall attempt], Except.ok v)
    | AttemptOutcome.fail e =>
      if remaining = 0 then ([Event.networkCall attempt], Except.error e)
      else
        let rest := getAiAnalysisGo responses (attempt + 1) remaining
        (Event.networkCall attempt :: Event.sleep 2 :: rest.1, rest.2)

/-- get_ai_analysis (lines 42 to 67), as a function of the stream of
attempt outcomes; returns the trace of calls and sleeps together with
the parsed object or the re-raised final failure. -/
def get_ai_analysis (responses : ℕ → AttemptOutcome) :
    List Event × Except String ForecastJson :=
  getAiAnalysisGo responses 0 max_retries

/-- The accuracy_check object of the live record (lines 139 to 143). -/
structure AccuracyCheckObj where
  yesterdays_predicted_range : String
  todays_actual_price : String
  hit : Bool
  deriving DecidableEq

/-- The live record built in main (lines 131 to 144). -/
structure LiveRecord where
  symbol : String
  current_price : ℚ
  price_change : ℚ
  price_change_percent : ℚ
  sentiment : Option String
  reasoning : Option String
  predicted_range : Option (List (Option ℚ))
  accuracy_check : Option AccuracyCheckObj
  deriving DecidableEq

/-- The history CSV row built in main (lines 148 to 159). -/
structure HistoryRow where
  date : String
  symbol : String
  actual_price : ℚ
  price_change : ℚ
  price_change_percent : ℚ
  ai_sentiment_for_tomorrow : Option String
  predicted_low_for_tomorrow : Option ℚ
  predicted_high_for_tomorrow : Option ℚ
  yesterdays_predicted_range : String
  accuracy_check_hit : Option Bool
  deriving DecidableEq

/-- One entry of the predictions list of the live snapshot: the success
record, or the error record appended by the handler at line 166. -/
inductive PredRecord where
  | success (r : LiveRecord)
  | failure (symbol : String) (error : String)
  deriving DecidableEq

/-- The symbol carried by a prediction record. -/
def PredRecord.symbolOf : PredRecord → String
  | PredRecord.success r => r.symbol
  | PredRecord.failure s _ => s

/-- The Python expression (x or [None, None]) applied to the value under
predicted_range: None and the empty list are falsy. -/
def orDefault (pr : Option (List (Option ℚ))) : List (Option ℚ) :=
  match pr with
  | none => [none, none]
  | some [] => [none, none]
  | some l => l

/-- Index of the first occurrence of a string in a list, the semantics
of the Python list.index call at line 106 for a present element. -/
def listIndex (x : String) : List String → ℕ
  | [] => 0
  | y :: ys => if y = x then 0 else listIndex x ys + 1

/-- Element at position i, reachable only under a length guard. -/
def floatAt (l : List ℚ) (i : ℕ) : ℚ := (l.drop i).headD 0

/-- Python closes[-1]. -/
def lastPrice (l : List ℚ) : ℚ := floatAt l (l.length - 1)

/-- Python closes[-2]. -/
def prevClose (l : List ℚ) : ℚ := floatAt l (l.length - 2)

/-- Per symbol slice of the external world: the bar download outcome,
the news request outcome, the stream of forecast attempt outcomes, and
the outcome of the history CSV append. -/
structure SymbolEnv where
  bars : Except String (List ℚ)
  news : NewsEnv
  responses : ℕ → AttemptOutcome
  historyAppend : Except String Unit

/-- Result of processing one symbol: emitted events, the records
appended to the predictions list, and the history rows written. -/
structure SymResult where
  events : List Event
  records : List PredRecord
  rows : List HistoryRow
  deriving Inhabited

/-- The body of the per symbol loop of main (lines 103 to 166),
including the handler that converts any raised exception into an error
record. The live record is appended before the history row is built and
written, so a failure after that point adds a second record. -/
def processSymbol (prior : String → Option PrevItem) (date : String)
    (env : SymbolEnv) (symbol : String) : SymResult :=
  let pacing : List Event :=
    if listIndex symbol SYMBOLS = 0 then [] else [Event.sleep 5]
  match get_stock_data_and_news symbol env.bars env.news with
  | Except.error e => ⟨pacing, [PredRecord.failure symbol e], []⟩
  | Except.ok (closes, _news) =>
    let current_price := lastPrice closes
    let previous_close := prevClose closes
    let aiRes := get_ai_analysis env.responses
    match aiRes.2 with
    | Except.error e => ⟨pacing ++ aiRes.1, [PredRecord.failure symbol e], []⟩
    | Except.ok ai =>
      if previous_close = 0 then
        ⟨pacing ++ aiRes.1,
         [PredRecord.failure symbol "ZeroDivisionError: float division by zero"], []⟩
      else
        let price_change := current_price - previous_close
        let price_change_percent := price_change / previous_close * 100
        let acc := accuracyCheck (prior symbol) current_price
        let live : LiveRecord :=
          { symbol := symbol
            current_price := roundq 2 current_price
            price_change := roundq 2 price_change
            price_change_percent := roundq 2 price_change_percent
            sentiment := ai.sentiment
            reasoning := ai.reasoning
            predicted_range := ai.predicted_range
            accuracy_check :=
              acc.1.map (fun b => ⟨acc.2, "$" ++ fmt2 current_price, b⟩) }
        let pr := orDefault ai.predicted_range
        match pr.get? 0, pr.get? 1 with
        | some lo, some hi =>
          let row : HistoryRow :=
            { date := date
              symbol := symbol
              actual_price := roundq 4 current_price
              price_change := roundq 4 price_change
              price_change_percent := roundq 4 price_change_percent
              ai_sentiment_for_tomorrow := ai.sentiment
              predicted_low_for_tomorrow := lo
              predicted_high_for_tomorrow := hi
              yesterdays_predicted_range := acc.2
              accuracy_check_hit := acc.1 }
          match env.historyAppend with
          | Except.ok _ => ⟨pacing ++ aiRes.1, [PredRecord.success live], [row]⟩
          | Except.error e =>
            ⟨pacing ++ aiRes.1,
             [PredRecord.success live, PredRecord.failure symbol e], []⟩
        | _, _ =>
          ⟨pacing ++ aiRes.1,
           [PredRecord.success live,
            PredRecord.failure symbol "IndexError: list index out of range"], []⟩

/-- Whole run environment: the previously written predictions file, one
SymbolEnv per symbol, and the outcome of the final snapshot write. -/
structure RunEnv where
  priorFile : Option (List PrevItem)
  perSymbol : String → SymbolEnv
  snapshotWrite : Except String Unit
  date : String

/-- The per symbol loop of main over a list of symbols, concatenating
events, appended records and written rows in order. -/
def runSymbols (prior : String → Option PrevItem) (date : String)
    (perSymbol : String → SymbolEnv) :
    List String → List Event × List PredRecord × List HistoryRow
  | [] => ([], [], [])
  | s :: rest =>
    let r := processSymbol prior date (perSymbol s) s
    let t := runSymbols prior date perSymbol rest
    (r.events ++ t.1, r.records ++ t.2.1, r.rows ++ t.2.2)

/-- Outcome of a whole run: the event trace, the snapshot content if the
final write succeeded, the history rows written during the loop, and
the unhandled failure if the final write raised. -/
structure RunResult where
  trace : List Event
  written : Option (List PredRecord)
  rows : List HistoryRow
  err : Option String

/-- main (lines 90 to 170): load the previous snapshot, run the per
symbol loop, then write the snapshot once; a failure of that final
write is not caught anywhere and propagates. -/
def main (env : RunEnv) : RunResult :=
  let prior := loadPreviousPredictions env.priorFile
  let folded := runSymbols prior env.date env.perSymbol SYMBOLS
  match env.snapshotWrite with
  | Except.ok _ =>
    ⟨folded.1 ++ [Event.snapshotWrite], some folded.2.1, folded.2.2, none⟩
  | Except.error e => ⟨folded.1, none, folded.2.2, some e⟩

/-- Whether an event is a network call of the forecast client. -/
def Event.isCall : Event → Bool
  | Event.networkCall _ => true
  | _ => false

/-- Number of forecast network calls in a trace. -/
def countCalls (tr : List Event) : ℕ := tr.countP Event.isCall

/-- Expected trace when the first structurally valid response arrives on
attempt k: each earlier failed call is followed by a two second sleep. -/
def retryTrace (k : ℕ) : List Event :=
  (List.range k).flatMap (fun j => [Event.networkCall j, Event.sleep 2]) ++
    [Event.networkCall k]

/-! Helper lemmas. -/

theorem rqHalfEven_natCast (n : ℕ) : rqHalfEven (n : ℚ) = (n : ℤ) := by
  simp only [rqHalfEven, Int.floor_natCast, Int.cast_natCast, sub_self]
  norm_num

theorem fmt2_of_cents (x : ℚ) (n : ℕ) (h : x * 100 = (n : ℚ)) :
    fmt2 x = Nat.repr (n / 100) ++ "." ++ pad2 (n % 100) := by
  unfold fmt2
  rw [h, rqHalfEven_natCast]
  simp only [Int.natAbs_ofNat]
  rw [if_neg (Int.not_lt.mpr (Int.natCast_nonneg n))]
  rfl

/-- A prior record whose predicted_range value conforms to the snapshot
schema: either absent or a two element list of optional bounds. -/
def RangeWellFormed (item : PrevItem) : Prop :=
  item.predicted_range = none ∨ ∃ a b, item.predicted_range = some [a, b]

/-- Low bound of a prior forecast, none when the range is absent. -/
def priorLow (item : PrevItem) : Option ℚ :=
  match item.predicted_range with
  | some (a :: _) => a
  | _ => none

/-- High bound of a prior forecast, none when the range is absent. -/
def priorHigh (item : PrevItem) : Option ℚ :=
  match item.predicted_range with
  | some (_ :: b :: _) => b
  | _ => none

/-- A prior record with both bounds present but inverted. -/
def c2Prior : PrevItem := ⟨some "AAPL", false, some [some 160, some 150]⟩

/-- C2 counterexample: with an inverted range, both bounds present, the
evaluation at price 155 does not produce the Unknown pair. -/
theorem c2_inverted_counterexample :
    accuracyCheck (some c2Prior) 155 ≠ ((none : Option Bool), "N/A") := by
  intro h
  have h1 : (accuracyCheck (some c2Prior) 155).1 = none := by rw [h]
  simp [accuracyCheck, c2Prior] at h1

/-- C2 amended: for every prior forecast whose two bounds are both
present but inverted, and for every current price, the accuracy
evaluation tolerates the range without failing but produces Miss, hit
false, with the formatted range string, never Unknown and never Hit. -/
theorem c2_inverted_amended (item : PrevItem) (lo hi p : ℚ)
    (hpr : item.predicted_range = some [some lo, some hi]) (hlt : hi < lo) :
    accuracyCheck (some item) p =
      (some false, "$" ++ fmt2 lo ++ " - $" ++ fmt2 hi) := by
  simp only [accuracyCheck, hpr]
  have hn : ¬(lo ≤ p ∧ p ≤ hi) := fun hc => absurd (hc.1.trans hc.2) (not_le.mpr hlt)
  rw [decide_eq_false hn]

/-- C2 witness: the amended statement at the concrete inverted range
160 to 150 and price 155 gives Miss and the inverted display string. -/
theorem c2_inverted_amended_witness :
    accuracyCheck (some c2Prior) 155 = (some false, "$160.00 - $150.00") := by
  rw [c2_inverted_amended c2Prior 160 150 155 rfl (by norm_num)]
  rw [fmt2_of_cents (160 : ℚ) 16000 (by norm_num),
    fmt2_of_cents (150 : ℚ) 15000 (by norm_num)]
  rfl

/-- C3: the accuracy evaluation is total with values among Hit, Miss and
Unknown; on schema conformant priors it is Unknown exactly when the
prior is absent or has a null bound; otherwise it is Hit exactly when
the price lies inclusively between the bounds; the display string shows
both bounds as currency with two decimals, and N/A for Unknown. -/
theorem c3_accuracy_total (prior : Option PrevItem) (p : ℚ)
    (hwf : ∀ item, prior = some item → RangeWellFormed item) :
    ((accuracyCheck prior p).1 = none ∨ (accuracyCheck prior p).1 = some true ∨
        (accuracyCheck prior p).1 = some false)
    ∧ ((accuracyCheck prior p).1 = none ↔
        prior = none ∨ ∃ item, prior = some item ∧
          (priorLow item = none ∨ priorHigh item = none))
    ∧ (∀ item lo hi, prior = some item → priorLow item = some lo →
        priorHigh item = some hi →
        ((accuracyCheck prior p).1 = some true ↔ lo ≤ p ∧ p ≤ hi) ∧
          (accuracyCheck prior p).2 = "$" ++ fmt2 lo ++ " - $" ++ fmt2 hi)
    ∧ ((accuracyCheck prior p).1 = none → (accuracyCheck prior p).2 = "N/A") := by
  cases prior with
  | none =>
    refine ⟨Or.inl rfl, ?_, ?_, fun _ => rfl⟩
    · simp [accuracyCheck]
    · intro item lo hi h
      exact absurd h (by simp)
  | some item =>
    rcases hwf item rfl with hr | ⟨a, b, hr⟩
    · refine ⟨Or.inl ?_, ?_, ?_, ?_⟩
      · simp [accuracyCheck, hr]
      · simp only [accuracyCheck, hr]
        constructor
        · intro _
          exact Or.inr ⟨item, rfl, Or.inl (by simp [priorLow, hr])⟩
        · intro _; trivial
      · intro item0 lo hi heq hl hh
        have hi0 : item0 = item := by injection heq with h; exact h.symm
        subst hi0
        rw [priorLow, hr] at hl
        exact absurd hl (by simp)
      · intro _; simp [accuracyCheck, hr]
    · cases a with
      | none =>
        refine ⟨Or.inl ?_, ?_, ?_, ?_⟩
        · simp [accuracyCheck, hr]
        · simp only [accuracyCheck, hr]
          constructor
          · intro _
            exact Or.inr ⟨item, rfl, Or.inl (by simp [priorLow, hr])⟩
          · intro _; trivial
        · intro item0 lo hi heq hl hh
          have hi0 : item0 = item := by injection heq with h; exact h.symm
          subst hi0
          rw [priorLow, hr] at hl
          exact absurd hl (by simp)
        · intro _; simp [accuracyCheck, hr]
      | some lo =>
        cases b with
        | none =>
          refine ⟨Or.inl ?_, ?_, ?_, ?_⟩
          · simp [accuracyCheck, hr]
          · simp only [accuracyCheck, hr]
            constructor
            · intro _
              exact Or.inr ⟨item, rfl, Or.inr (by simp [priorHigh, hr])⟩
            · intro _; trivial
          · intro item0 lo0 hi heq hl hh
            have hi0 : item0 = item := by injection heq with h; exact h.symm
            subst hi0
            rw [priorHigh, hr] at hh
            exact absurd hh (by simp)
          · intro _; simp [accuracyCheck, hr]
        | some hi =>
          refine ⟨?_, ?_, ?_, ?_⟩
          · rcases hb : decide (lo ≤ p ∧ p ≤ hi) with _ | _
            · exact Or.inr (Or.inr (by simp [accuracyCheck, hr, hb]))
            · exact Or.inr (Or.inl (by simp [accuracyCheck, hr, hb]))
          · simp only [accuracyCheck, hr]
            constructor
            · intro h; exact absurd h (by simp)
            · rintro (h | ⟨item0, heq, hl | hh⟩)
              · exact absurd h (by simp)
              · have hi0 : item0 = item := by injection heq with h0; exact h0.symm
                subst hi0
                rw [priorLow, hr] at hl
                exact absurd hl (by simp)
              · have hi0 : item0 = item := by injection heq with h0; exact h0.symm
                subst hi0
                rw [priorHigh, hr] at hh
                exact absurd hh (by simp)
          · intro item0 lo0 hi0 heq hl hh
            have hie : item0 = item := by injection heq with h0; exact h0.symm
            subst hie
            rw [priorLow, hr] at hl
            rw [priorHigh, hr] at hh
            have hlo : lo = lo0 := Option.some.inj hl
            have hhi : hi = hi0 := Option.some.inj hh
            subst hlo; subst hhi
            constructor
            · simp [accuracyCheck, hr]
            · simp [accuracyCheck, hr]
          · intro h
            simp only [accuracyCheck, hr] at h
            exact absurd h (by simp)

/-- A schema conformant prior used to instantiate the C3 theorem. -/
def c3Prior : PrevItem := ⟨some "AAPL", false, some [some (12345/100), some 130]⟩

/-- C3 witness: the theorem applied to a concrete in-range price yields
Hit and a currency display string with two decimal places. -/
theorem c3_accuracy_total_witness :
    (accuracyCheck (some c3Prior) 125).1 = some true ∧
      (accuracyCheck (some c3Prior) 125).2 = "$123.45 - $130.00" := by
  have h := c3_accuracy_total (some c3Prior) 125
    (by rintro item h; injection h with h; subst h; exact Or.inr ⟨_, _, rfl⟩)
  have h3 := h.2.2.1 c3Prior (12345/100) 130 rfl rfl rfl
  refine ⟨h3.1.mpr (by norm_num), ?_⟩
  rw [h3.2, fmt2_of_cents (12345/100 : ℚ) 12345 (by norm_num),
    fmt2_of_cents (130 : ℚ) 13000 (by norm_num)]
  rfl

theorem countCalls_go_le (responses : ℕ → AttemptOutcome) :
    ∀ remaining attempt,
      countCalls (getAiAnalysisGo responses attempt remaining).1 ≤ remaining := by
  intro remaining
  induction remaining with
  | zero => intro a; simp [getAiAnalysisGo, countCalls]
  | succ r ih =>
    intro a
    simp only [getAiAnalysisGo]
    cases hr : responses a with
    | ok v => simp [countCalls, Event.isCall]
    | fail e =>
      dsimp only
      by_cases h0 : r = 0
      · subst h0
        simp [countCalls, Event.isCall]
      · rw [if_neg h0]
        simp only [countCalls, List.countP_cons, Event.isCall]
        have hle := ih (a + 1)
        simp only [countCalls] at hle
        simp only [if_true, if_false, Bool.false_eq_true]
        omega

theorem go_eval_ok (responses : ℕ → AttemptOutcome) (a r : ℕ) (v : ForecastJson)
    (h : responses a = AttemptOutcome.ok v) :
    getAiAnalysisGo responses a (r + 1) = ([Event.networkCall a], Except.ok v) := by
  simp [getAiAnalysisGo, h]

theorem go_eval_fail_last (responses : ℕ → AttemptOutcome) (a : ℕ) (e : String)
    (h : responses a = AttemptOutcome.fail e) :
    getAiAnalysisGo responses a 1 = ([Event.networkCall a], Except.error e) := by
  simp [getAiAnalysisGo, h]

theorem go_eval_fail_step (responses : ℕ → AttemptOutcome) (a r : ℕ) (e : String)
    (h : responses a = AttemptOutcome.fail e) (hr : r ≠ 0) :
    getAiAnalysisGo responses a (r + 1) =
      (Event.networkCall a :: Event.sleep 2 ::
          (getAiAnalysisGo responses (a + 1) r).1,
        (getAiAnalysisGo responses (a + 1) r).2) := by
  simp [getAiAnalysisGo, h, hr]

/-- C4: the forecast client makes at most three network attempts; it
returns right after the first structurally valid response, with every
failed non final attempt followed by a fixed two unit delay and a
retry; and when all three attempts fail the last cause is re-raised. -/
theorem c4_retry_policy (responses : ℕ → AttemptOutcome) :
    countCalls (get_ai_analysis responses).1 ≤ 3
    ∧ (∀ k v, k < 3 → responses k = AttemptOutcome.ok v →
        (∀ j, j < k → ∀ w, responses j ≠ AttemptOutcome.ok w) →
        (get_ai_analysis responses).2 = Except.ok v ∧
          (get_ai_analysis responses).1 = retryTrace k)
    ∧ (∀ e0 e1 e2, responses 0 = AttemptOutcome.fail e0 →
        responses 1 = AttemptOutcome.fail e1 →
        responses 2 = AttemptOutcome.fail e2 →
        (get_ai_analysis responses).2 = Except.error e2 ∧
          (get_ai_analysis responses).1 =
            [Event.networkCall 0, Event.sleep 2, Event.networkCall 1,
             Event.sleep 2, Event.networkCall 2]) := by
  refine ⟨by simpa [get_ai_analysis, max_retries] using countCalls_go_le responses 3 0,
    ?_, ?_⟩
  · intro k v hk hok hprev
    interval_cases k
    · have hmain : get_ai_analysis responses = ([Event.networkCall 0], Except.ok v) := by
        show getAiAnalysisGo responses 0 (2 + 1) = _
        rw [go_eval_ok responses 0 2 v hok]
      exact ⟨by rw [hmain], by rw [hmain]; rfl⟩
    · rcases h0 : responses 0 with w | e0
      · exact absurd h0 (hprev 0 (by norm_num) w)
      · have hGo12 : getAiAnalysisGo responses 1 2 =
            ([Event.networkCall 1], Except.ok v) := by
          show getAiAnalysisGo responses 1 (1 + 1) = _
          rw [go_eval_ok responses 1 1 v hok]
        have hmain : get_ai_analysis responses =
            ([Event.networkCall 0, Event.sleep 2, Event.networkCall 1],
              Except.ok v) := by
          show getAiAnalysisGo responses 0 (2 + 1) = _
          rw [go_eval_fail_step responses 0 2 e0 h0 (by norm_num), hGo12]
        exact ⟨by rw [hmain], by rw [hmain]; rfl⟩
    · rcases h0 : responses 0 with w | e0
      · exact absurd h0 (hprev 0 (by norm_num) w)
      · rcases h1 : responses 1 with w | e1
        · exact absurd h1 (hprev 1 (by norm_num) w)
        · have hGo21 : getAiAnalysisGo responses 2 1 =
              ([Event.networkCall 2], Except.ok v) := by
            show getAiAnalysisGo responses 2 (0 + 1) = _
            rw [go_eval_ok responses 2 0 v hok]
          have hGo12 : getAiAnalysisGo responses 1 2 =
              (Event.networkCall 1 :: Event.sleep 2 ::
                  (getAiAnalysisGo responses 2 1).1,
                (getAiAnalysisGo responses 2 1).2) := by
            show getAiAnalysisGo responses 1 (1 + 1) = _
            exact go_eval_fail_step responses 1 1 e1 h1 (by norm_num)
          have hmain : get_ai_analysis responses =
              ([Event.networkCall 0, Event.sleep 2, Event.networkCall 1,
                  Event.sleep 2, Event.networkCall 2], Except.ok v) := by
            show getAiAnalysisGo responses 0 (2 + 1) = _
            rw [go_eval_fail_step responses 0 2 e0 h0 (by norm_num), hGo12, hGo21]
          exact ⟨by rw [hmain], by rw [hmain]; rfl⟩
  · intro e0 e1 e2 h0 h1 h2
    have hGo21 : getAiAnalysisGo responses 2 1 =
        ([Event.networkCall 2], Except.error e2) :=
      go_eval_fail_last responses 2 e2 h2
    have hGo12 : getAiAnalysisGo responses 1 2 =
        (Event.networkCall 1 :: Event.sleep 2 ::
            (getAiAnalysisGo responses 2 1).1,
          (getAiAnalysisGo responses 2 1).2) := by
      show getAiAnalysisGo responses 1 (1 + 1) = _
      exact go_eval_fail_step responses 1 1 e1 h1 (by norm_num)
    have hmain : get_ai_analysis responses =
        ([Event.networkCall 0, Event.sleep 2, Event.networkCall 1,
            Event.sleep 2, Event.networkCall 2], Except.error e2) := by
      show getAiAnalysisGo responses 0 (2 + 1) = _
      rw [go_eval_fail_step responses 0 2 e0 h0 (by norm_num), hGo12, hGo21]
    exact ⟨by rw [hmain], by rw [hmain]⟩

/-- A forecast response used to close concrete runs. -/
def okAi : ForecastJson := ⟨some "Bullish", some "up", none, none, none⟩

/-- A response stream that fails once, then answers. -/
def c4Responses : ℕ → AttemptOutcome :=
  fun n => if n = 0 then AttemptOutcome.fail "HTTP 503" else AttemptOutcome.ok okAi

/-- C4 witness: with a failure on the first attempt and a valid second
response, the client returns that response after exactly the trace
call, sleep two, call. -/
theorem c4_retry_policy_witness :
    (get_ai_analysis c4Responses).2 = Except.ok okAi ∧
      (get_ai_analysis c4Responses).1 = retryTrace 1 := by
  refine (c4_retry_policy c4Responses).2.1 1 okAi (by norm_num) rfl ?_
  intro j hj w
  interval_cases j
  simp [c4Responses]

/-- C7 amended: a failure of the news HTTP request itself (the class
requests.RequestException: connection errors, error statuses) is
replaced by a placeholder string, a missing key gives the default
string, and with such outcomes the symbol pipeline continues; but only
that exception class is caught, so an article object without a title
raises a KeyError that escapes the news handler. -/
theorem c7_news_placeholder (e : String) (r : Except String (List (Option String)))
    (sym : String) :
    fetchNews ⟨true, Except.error e⟩ = Except.ok ("Could not fetch news: " ++ e)
    ∧ fetchNews ⟨false, r⟩ = Except.ok "No recent news found."
    ∧ get_stock_data_and_news sym (Except.ok [100, 110]) ⟨true, Except.error e⟩
        = Except.ok ([100, 110], "Could not fetch news: " ++ e) :=
  ⟨rfl, rfl, rfl⟩

/-- A news response whose only article has no title field. -/
def c7News : NewsEnv := ⟨true, Except.ok [none]⟩

/-- A symbol environment that is healthy except for the news body. -/
def c7Env : SymbolEnv :=
  ⟨Except.ok [100, 110], c7News, fun _ => AttemptOutcome.ok okAi, Except.ok ()⟩

/-- C7 counterexample: a well formed news response whose article lacks
the title key makes the whole symbol fail with a KeyError; the news
failure propagates as the symbol error instead of a placeholder. -/
theorem c7_counterexample :
    (processSymbol (fun _ => none) "2026-01-02" c7Env "AAPL").records =
      [PredRecord.failure "AAPL" "KeyError: title"] := rfl

theorem foldl_updatePrior_invariant (items : List PrevItem) :
    ∀ (m : String → Option PrevItem),
      (∀ s item, m s = some item → item.hasError = false ∧ item.symbol = some s) →
      ∀ s item, (items.foldl updatePrior m) s = some item →
        item.hasError = false ∧ item.symbol = some s := by
  induction items with
  | nil => intro m hm; exact hm
  | cons it rest ih =>
    intro m hm
    simp only [List.foldl_cons]
    apply ih
    intro s item h
    unfold updatePrior at h
    rcases hsym : it.symbol with _ | s0
    · simp only [hsym] at h; exact hm _ _ h
    · simp only [hsym] at h
      by_cases he : it.hasError = true
      · rw [if_pos he] at h; exact hm _ _ h
      · rw [if_neg he] at h
        by_cases hk : s = s0
        · rw [if_pos hk] at h
          have : it = item := Option.some.inj h
          subst this
          exact ⟨Bool.not_eq_true _ |>.mp he, by rw [hsym, hk]⟩
        · rw [if_neg hk] at h
          exact hm _ _ h

/-- C8: loading the prior snapshot is non fatal and filters errors: a
missing or malformed file yields the empty mapping, and any record the
mapping returns has no error key and carries the symbol it is stored
under, so an error variant record is never used as a prior forecast. -/
theorem c8_prior_snapshot_load :
    (∀ s, loadPreviousPredictions none s = none)
    ∧ (∀ items s item, loadPreviousPredictions (some items) s = some item →
        item.hasError = false ∧ item.symbol = some s) := by
  refine ⟨fun s => rfl, fun items s item h => ?_⟩
  exact foldl_updatePrior_invariant items (fun _ => none) (by intro s0 it h0; cases h0)
    s item h

/-- A one record prior file used to instantiate C8. -/
def c8Items : List PrevItem := [⟨some "AAPL", false, some [some 150, some 160]⟩]

/-- C8 witness: the loaded record for AAPL has no error key and carries
its own symbol; the empty file case gives the empty mapping. -/
theorem c8_prior_snapshot_load_witness :
    loadPreviousPredictions none "AAPL" = none ∧
      ((⟨some "AAPL", false, some [some 150, some 160]⟩ : PrevItem).hasError = false ∧
        (⟨some "AAPL", false, some [some 150, some 160]⟩ : PrevItem).symbol =
          some "AAPL") :=
  ⟨c8_prior_snapshot_load.1 "AAPL", c8_prior_snapshot_load.2 c8Items "AAPL" _ rfl⟩

/-- The parsed forecast of C1: the prompt keys predicted_low and
predicted_high are present and numeric, predicted_range is absent. -/
def c1Ai : ForecastJson := ⟨some "Bullish", some "momentum", some 150, some 160, none⟩

/-- A healthy symbol environment whose forecast response is c1Ai. -/
def c1Env : SymbolEnv :=
  ⟨Except.ok [100, 155], ⟨false, Except.ok []⟩, fun _ => AttemptOutcome.ok c1Ai,
    Except.ok ()⟩

/-- Projection of the predicted_range field of a success record. -/
def recPredictedRange : PredRecord → Option (Option (List (Option ℚ)))
  | PredRecord.success r => some r.predicted_range
  | PredRecord.failure _ _ => none

/-- C1: the parsed response carries numeric predicted_low and
predicted_high, yet the success record built from it stores a null
predicted_range and the history row stores null bounds: the record
builder reads the key predicted_range, which the prompt never asks the
model to produce, instead of the two bound keys. -/
theorem c1_bounds_dropped :
    c1Ai.predicted_low = some 150 ∧ c1Ai.predicted_high = some 160 ∧
    (processSymbol (fun _ => none) "2026-01-02" c1Env "AAPL").records.map
        recPredictedRange = [some none] ∧
    (processSymbol (fun _ => none) "2026-01-02" c1Env "AAPL").rows.map
        HistoryRow.predicted_low_for_tomorrow = [none] ∧
    (processSymbol (fun _ => none) "2026-01-02" c1Env "AAPL").rows.map
        HistoryRow.predicted_high_for_tomorrow = [none] :=
  ⟨rfl, rfl, rfl, rfl, rfl⟩

theorem processSymbol_shape (prior : String → Option PrevItem) (date : String)
    (env : SymbolEnv) (s : String) :
    (∃ live, (processSymbol prior date env s).records = [PredRecord.success live] ∧
        live.symbol = s ∧ (processSymbol prior date env s).rows ≠ []) ∨
    (∃ e, (processSymbol prior date env s).records = [PredRecord.failure s e] ∧
        (processSymbol prior date env s).rows = []) ∨
    (∃ live e, (processSymbol prior date env s).records =
          [PredRecord.success live, PredRecord.failure s e] ∧
        live.symbol = s ∧ (processSymbol prior date env s).rows = []) := by
  simp only [processSymbol]
  split
  · exact Or.inr (Or.inl ⟨_, rfl, rfl⟩)
  · split
    · exact Or.inr (Or.inl ⟨_, rfl, rfl⟩)
    · split
      · exact Or.inr (Or.inl ⟨_, rfl, rfl⟩)
      · split
        · split
          · exact Or.inl ⟨_, rfl, rfl, by simp⟩
          · exact Or.inr (Or.inr ⟨_, _, rfl, rfl, rfl⟩)
        · exact Or.inr (Or.inr ⟨_, _, rfl, rfl, rfl⟩)

theorem processSymbol_records_symbols (prior : String → Option PrevItem)
    (date : String) (env : SymbolEnv) (s : String) :
    (processSymbol prior date env s).records.map PredRecord.symbolOf =
      List.replicate (processSymbol prior date env s).records.length s := by
  rcases processSymbol_shape prior date env s with
    ⟨live, hrec, hsym, _⟩ | ⟨e, hrec, _⟩ | ⟨live, e, hrec, hsym, _⟩
  · rw [hrec]; simp [PredRecord.symbolOf, hsym]
  · rw [hrec]; simp [PredRecord.symbolOf]
  · rw [hrec]; simp [PredRecord.symbolOf, hsym]

theorem processSymbol_records_length (prior : String → Option PrevItem)
    (date : String) (env : SymbolEnv) (s : String) :
    1 ≤ (processSymbol prior date env s).records.length ∧
      (processSymbol prior date env s).records.length ≤ 2 := by
  rcases processSymbol_shape prior date env s with
    ⟨_, hrec, _, _⟩ | ⟨_, hrec, _⟩ | ⟨_, _, hrec, _, _⟩ <;> rw [hrec] <;> simp

theorem go_no_snapshot (responses : ℕ → AttemptOutcome) :
    ∀ remaining attempt,
      Event.snapshotWrite ∉ (getAiAnalysisGo responses attempt remaining).1 := by
  intro remaining
  induction remaining with
  | zero => intro a; simp [getAiAnalysisGo]
  | succ r ih =>
    intro a
    simp only [getAiAnalysisGo]
    cases hr : responses a with
    | ok v => simp
    | fail e =>
      dsimp only
      by_cases h0 : r = 0
      · subst h0; simp
      · rw [if_neg h0]
        simp only [List.mem_cons]
        rintro (h | h | h)
        · exact Event.noConfusion h
        · exact Event.noConfusion h
        · exact ih (a + 1) h

theorem processSymbol_no_snapshot (prior : String → Option PrevItem)
    (date : String) (env : SymbolEnv) (s : String) :
    Event.snapshotWrite ∉ (processSymbol prior date env s).events := by
  have hgo : Event.snapshotWrite ∉ (get_ai_analysis env.responses).1 :=
    go_no_snapshot env.responses max_retries 0
  have hpac : Event.snapshotWrite ∉
      (if listIndex s SYMBOLS = 0 then ([] : List Event) else [Event.sleep 5]) := by
    split <;> simp
  have hboth : Event.snapshotWrite ∉
      (if listIndex s SYMBOLS = 0 then ([] : List Event) else [Event.sleep 5]) ++
        (get_ai_analysis env.responses).1 := by
    intro h
    rcases List.mem_append.mp h with h | h
    · exact hpac h
    · exact hgo h
  simp only [processSymbol]
  split
  · exact hpac
  · split
    · exact hboth
    · split
      · exact hboth
      · split
        · split
          · exact hboth
          · exact hboth
        · exact hboth

theorem runSymbols_no_snapshot (prior : String → Option PrevItem) (date : String)
    (perSymbol : String → SymbolEnv) :
    ∀ syms, Event.snapshotWrite ∉ (runSymbols prior date perSymbol syms).1 := by
  intro syms
  induction syms with
  | nil => simp [runSymbols]
  | cons s rest ih =>
    simp only [runSymbols]
    intro h
    rcases List.mem_append.mp h with h | h
    · exact processSymbol_no_snapshot prior date (perSymbol s) s h
    · exact ih h

theorem runSymbols_mem (prior : String → Option PrevItem) (date : String)
    (perSymbol : String → SymbolEnv) :
    ∀ syms s, s ∈ syms →
      ∃ r ∈ (runSymbols prior date perSymbol syms).2.1, PredRecord.symbolOf r = s := by
  intro syms
  induction syms with
  | nil => intro s h; cases h
  | cons s0 rest ih =>
    intro s h
    rcases List.mem_cons.mp h with h | h
    · subst h
      rcases processSymbol_shape prior date (perSymbol s) s with
        ⟨live, hrec, hsym, _⟩ | ⟨e, hrec, _⟩ | ⟨live, e, hrec, hsym, _⟩
      · refine ⟨PredRecord.success live, ?_, hsym⟩
        simp only [runSymbols]
        exact List.mem_append.mpr (Or.inl (by rw [hrec]; simp))
      · refine ⟨PredRecord.failure s e, ?_, rfl⟩
        simp only [runSymbols]
        exact List.mem_append.mpr (Or.inl (by rw [hrec]; simp))
      · refine ⟨PredRecord.success live, ?_, hsym⟩
        simp only [runSymbols]
        exact List.mem_append.mpr (Or.inl (by rw [hrec]; simp))
    · obtain ⟨r, hr, hsr⟩ := ih s h
      refine ⟨r, ?_, hsr⟩
      simp only [runSymbols]
      exact List.mem_append.mpr (Or.inr hr)

theorem runSymbols_rows_fail (prior : String → Option PrevItem) (date : String)
    (perSymbol : String → SymbolEnv) :
    ∀ syms s, s ∈ syms → (processSymbol prior date (perSymbol s) s).rows = [] →
      ∃ e, PredRecord.failure s e ∈ (runSymbols prior date perSymbol syms).2.1 := by
  intro syms
  induction syms with
  | nil => intro s h; cases h
  | cons s0 rest ih =>
    intro s h hrow
    rcases List.mem_cons.mp h with h | h
    · subst h
      rcases processSymbol_shape prior date (perSymbol s) s with
        ⟨live, hrec, hsym, hrows⟩ | ⟨e, hrec, _⟩ | ⟨live, e, hrec, hsym, _⟩
      · exact absurd hrow hrows
      · refine ⟨e, ?_⟩
        simp only [runSymbols]
        exact List.mem_append.mpr (Or.inl (by rw [hrec]; simp))
      · refine ⟨e, ?_⟩
        simp only [runSymbols]
        exact List.mem_append.mpr (Or.inl (by rw [hrec]; simp))
    · obtain ⟨e, he⟩ := ih s h hrow
      refine ⟨e, ?_⟩
      simp only [runSymbols]
      exact List.mem_append.mpr (Or.inr he)

theorem runSymbols_map (prior : String → Option PrevItem) (date : String)
    (perSymbol : String → SymbolEnv) :
    ∀ syms, (runSymbols prior date perSymbol syms).2.1.map PredRecord.symbolOf =
      syms.flatMap (fun s => List.replicate
        (processSymbol prior date (perSymbol s) s).records.length s) := by
  intro syms
  induction syms with
  | nil => simp [runSymbols]
  | cons s0 rest ih =>
    simp only [runSymbols, List.flatMap_cons, List.map_append, ih,
      processSymbol_records_symbols]

/-- C5: for every run whose final snapshot write succeeds, the snapshot
write happens exactly once and as the last event; every configured
symbol contributes at least one record to the written predictions list;
and every symbol whose processing failed (writing no history row)
contributes an error variant record, so no per symbol failure aborts
the run. -/
theorem c5_failure_isolation (env : RunEnv)
    (h : env.snapshotWrite = Except.ok ()) :
    ∃ preds, (main env).written = some preds
      ∧ (main env).trace.countP (fun e => decide (e = Event.snapshotWrite)) = 1
      ∧ (main env).trace.getLast? = some Event.snapshotWrite
      ∧ (∀ s ∈ SYMBOLS, ∃ r ∈ preds, PredRecord.symbolOf r = s)
      ∧ (∀ s ∈ SYMBOLS,
          (processSymbol (loadPreviousPredictions env.priorFile) env.date
              (env.perSymbol s) s).rows = [] →
          ∃ e, PredRecord.failure s e ∈ preds) := by
  have hmain : (main env).trace =
      (runSymbols (loadPreviousPredictions env.priorFile) env.date
          env.perSymbol SYMBOLS).1 ++ [Event.snapshotWrite] := by
    simp [main, h]
  refine ⟨(runSymbols (loadPreviousPredictions env.priorFile) env.date
      env.perSymbol SYMBOLS).2.1, by simp [main, h], ?_, ?_, ?_, ?_⟩
  · rw [hmain, List.countP_append]
    have h0 : (runSymbols (loadPreviousPredictions env.priorFile) env.date
        env.perSymbol SYMBOLS).1.countP
          (fun e => decide (e = Event.snapshotWrite)) = 0 := by
      rw [List.countP_eq_zero]
      intro e he
      have hne : e ≠ Event.snapshotWrite := by
        intro hc; subst hc
        exact runSymbols_no_snapshot _ _ _ SYMBOLS he
      simp [hne]
    rw [h0]
    rfl
  · rw [hmain]; simp
  · intro s hs
    exact runSymbols_mem _ _ _ SYMBOLS s hs
  · intro s hs hrow
    exact runSymbols_rows_fail _ _ _ SYMBOLS s hs hrow

/-- A symbol environment in which everything succeeds. -/
def okSymbolEnv : SymbolEnv :=
  ⟨Except.ok [100, 110], ⟨false, Except.ok []⟩, fun _ => AttemptOutcome.ok okAi,
    Except.ok ()⟩

/-- A run in which every symbol succeeds and the snapshot write works. -/
def c5Run : RunEnv := ⟨none, fun _ => okSymbolEnv, Except.ok (), "2026-01-02"⟩

/-- C5 witness: the theorem applies to a fully healthy run, whose trace
ends with the single snapshot write. -/
theorem c5_failure_isolation_witness :
    (main c5Run).trace.getLast? = some Event.snapshotWrite ∧
      (main c5Run).written ≠ none := by
  obtain ⟨preds, hw, _, hl, _, _⟩ := c5_failure_isolation c5Run rfl
  exact ⟨hl, by rw [hw]; simp⟩

/-- C6 amended: only a failure of the final live snapshot overwrite is
fatal and propagates out of the run unhandled, leaving nothing written;
a history ledger append failure is caught at the per symbol boundary
and the run still completes without an unhandled failure. -/
theorem c6_write_failure_scope (env : RunEnv) :
    (∀ e, env.snapshotWrite = Except.error e →
        (main env).err = some e ∧ (main env).written = none)
    ∧ (env.snapshotWrite = Except.ok () →
        (main env).err = none ∧ (main env).written ≠ none) := by
  constructor
  · intro e he
    constructor <;> simp [main, he]
  · intro hok
    constructor <;> simp [main, hok]

/-- A symbol environment whose history CSV append fails. -/
def appendFailEnv : SymbolEnv :=
  ⟨Except.ok [100, 110], ⟨false, Except.ok []⟩, fun _ => AttemptOutcome.ok okAi,
    Except.error "disk full"⟩

/-- A symbol environment whose bar download fails. -/
def barsFailEnv : SymbolEnv :=
  ⟨Except.error "no data", ⟨false, Except.ok []⟩,
    fun _ => AttemptOutcome.fail "offline", Except.ok ()⟩

/-- A run where the AAPL history append fails and the other symbols
fail at the data fetch; the snapshot write succeeds. -/
def c6Run : RunEnv :=
  ⟨none, fun s => if s = "AAPL" then appendFailEnv else barsFailEnv,
    Except.ok (), "2026-01-02"⟩

/-- C6 counterexample: a history ledger append failure does not
propagate as an unhandled failure; the run completes and the failure is
converted into a symbol scoped error variant record. -/
theorem c6_counterexample :
    (main c6Run).err = none ∧
      PredRecord.failure "AAPL" "disk full" ∈ (main c6Run).written.getD [] := by
  exact ⟨rfl, by decide⟩

/-- A run whose snapshot write fails. -/
def c6wRun : RunEnv :=
  ⟨none, fun _ => barsFailEnv, Except.error "read-only file system", "2026-01-02"⟩

/-- C6 witness: the amended statement applied to a run whose final
snapshot write fails: the failure propagates and nothing is written. -/
theorem c6_write_failure_scope_witness :
    (main c6wRun).err = some "read-only file system" ∧
      (main c6wRun).written = none :=
  (c6_write_failure_scope c6wRun).1 "read-only file system" rfl

/-- C9: on the fully successful path the exact price facts are the
difference of the last two closes and its percentage of the previous
close, the live record rounds them to two decimal places, and the
history row rounds them to four decimal places. -/
theorem c9_arithmetic_rounding (prior : String → Option PrevItem) (date : String)
    (env : SymbolEnv) (s : String) (closes : List ℚ) (news : String)
    (ai : ForecastJson)
    (hb : env.bars = Except.ok closes) (hlen : 2 ≤ closes.length)
    (hn : fetchNews env.news = Except.ok news)
    (hai : (get_ai_analysis env.responses).2 = Except.ok ai)
    (hz : ¬ prevClose closes = 0)
    (hr2 : 2 ≤ (orDefault ai.predicted_range).length)
    (hw : env.historyAppend = Except.ok ()) :
    ∃ live row,
      (processSymbol prior date env s).records = [PredRecord.success live] ∧
      (processSymbol prior date env s).rows = [row] ∧
      live.current_price = roundq 2 (lastPrice closes) ∧
      live.price_change = roundq 2 (lastPrice closes - prevClose closes) ∧
      live.price_change_percent =
        roundq 2 ((lastPrice closes - prevClose closes) / prevClose closes * 100) ∧
      row.actual_price = roundq 4 (lastPrice closes) ∧
      row.price_change = roundq 4 (lastPrice closes - prevClose closes) ∧
      row.price_change_percent =
        roundq 4 ((lastPrice closes - prevClose closes) / prevClose closes * 100) := by
  have hfetch : get_stock_data_and_news s env.bars env.news =
      Except.ok (closes, news) := by
    simp only [get_stock_data_and_news, hb]
    rw [if_neg (by omega), hn]
  obtain ⟨lo, h0⟩ : ∃ x, (orDefault ai.predicted_range).get? 0 = some x :=
    ⟨_, List.get?_eq_get (by omega)⟩
  obtain ⟨hi, h1⟩ : ∃ x, (orDefault ai.predicted_range).get? 1 = some x :=
    ⟨_, List.get?_eq_get (by omega)⟩
  simp only [processSymbol, hfetch, hai, if_neg hz, h0, h1, hw]
  exact ⟨_, _, rfl, rfl, rfl, rfl, rfl, rfl, rfl, rfl⟩

/-- A healthy symbol environment used to instantiate C9. -/
def c9Env : SymbolEnv :=
  ⟨Except.ok [100, 110], ⟨false, Except.ok []⟩, fun _ => AttemptOutcome.ok okAi,
    Except.ok ()⟩

/-- C9 witness: the theorem instantiated on concrete bars 100 and 110;
the history row carries the four decimal roundings of the exact
difference. -/
theorem c9_arithmetic_rounding_witness :
    (processSymbol (fun _ => none) "2026-01-02" c9Env "AAPL").rows.map
        HistoryRow.actual_price = [roundq 4 (lastPrice [100, 110])] ∧
      (processSymbol (fun _ => none) "2026-01-02" c9Env "AAPL").rows.map
        HistoryRow.price_change =
          [roundq 4 (lastPrice [100, 110] - prevClose [100, 110])] := by
  obtain ⟨live, row, hrec, hrow, _, _, _, hap, hpc, _⟩ :=
    c9_arithmetic_rounding (fun _ => none) "2026-01-02" c9Env "AAPL" [100, 110]
      "No recent news found." okAi rfl (by norm_num) rfl rfl
      (by norm_num [prevClose, floatAt]) (by norm_num [okAi, orDefault]) rfl
  rw [hrow]
  simp [hap, hpc]

/-- A run identical to c6Run used to refute the uniqueness claim. -/
def c10Run : RunEnv :=
  ⟨none, fun s => if s = "AAPL" then appendFailEnv else barsFailEnv,
    Except.ok (), "2026-01-02"⟩

/-- C10 counterexample: when the history append fails after the success
record is already appended, the written snapshot carries two records
for that symbol, refuting exactly one record per configured symbol. -/
theorem c10_counterexample :
    ((main c10Run).written.getD []).map PredRecord.symbolOf =
      ["AAPL", "AAPL", "GOOGL", "TSLA", "MSFT"] := by decide

/-- C10 amended: the written predictions list carries the records
grouped by symbol in exactly the configured order, with at least one
and at most two records per symbol; a second record for a symbol occurs
exactly when a failure happens after the success record was appended. -/
theorem c10_amended_order (env : RunEnv)
    (h : env.snapshotWrite = Except.ok ()) :
    ∃ preds, (main env).written = some preds ∧
      preds.map PredRecord.symbolOf =
        SYMBOLS.flatMap (fun s => List.replicate
          (processSymbol (loadPreviousPredictions env.priorFile) env.date
            (env.perSymbol s) s).records.length s) ∧
      ∀ s, 1 ≤ (processSymbol (loadPreviousPredictions env.priorFile) env.date
            (env.perSymbol s) s).records.length ∧
          (processSymbol (loadPreviousPredictions env.priorFile) env.date
            (env.perSymbol s) s).records.length ≤ 2 := by
  refine ⟨(runSymbols (loadPreviousPredictions env.priorFile) env.date
      env.perSymbol SYMBOLS).2.1, by simp [main, h], ?_, ?_⟩
  · exact runSymbols_map _ _ _ SYMBOLS
  · intro s
    exact processSymbol_records_length _ _ _ _

/-- A fully healthy run used to instantiate the amended C10. -/
def c10wRun : RunEnv := ⟨none, fun _ => okSymbolEnv, Except.ok (), "2026-01-02"⟩

/-- C10 witness: the amended statement applies to a healthy run. -/
theorem c10_amended_order_witness : (main c10wRun).written ≠ none := by
  obtain ⟨preds, hw, _, _⟩ := c10_amended_order c10wRun rfl
  rw [hw]
  simp

end StockAnalyzer
